import Mathlib

/-!
Verification of the crawl-and-sync engine of the go-jp-rss repository.

The engine lives in src/main.ts (single-source variant) with the same logic
split across html-parser.ts, rss-generator.ts, fetch-utils.ts and the
Medium-based generate in the modular variant. We embed the engine shallowly:

* JavaScript `Date` parsing is a parameter `p : String → Option Int`
  (`some t` = epoch milliseconds of a valid date, `none` = Invalid Date);
* the network + DOM layer is a parameter `site : String → Option Page`
  mapping a page URL to the items and next-page link that
  `parseNewsItems` / `getNextPageUrl` produce for it (`none` = the fetch or
  the DOM parse throws, which aborts the run);
* the `while (true)` pagination loop is fuel-bounded (`none` = the loop did
  not finish within the given fuel, or the run aborted);
* the cursor store (the per-source LAST file) is an `Option String`
  (`none` = the file does not exist).

JavaScript truthiness matters throughout: `null` and `""` are both falsy,
and the engine tests `lastUrl`, `nextPageUrl`, `href` and `pubDate` with
bare truthiness checks.
-/

namespace GoJpRss

/-- One harvested entry: the NewsItem interface of src/main.ts lines 22-27. -/
structure NewsItem where
  title : String
  link : String
  description : String
  pubDate : String
deriving Repr, DecidableEq

/-- The item cap MAX_ITEMS = 40 of src/main.ts line 17. -/
def MAX_ITEMS : Nat := 40

/-- JavaScript truthiness of a `string | null` value: `null` and the empty
string are falsy, every other string is truthy. -/
def jsTruthy : Option String → Bool
  | none => false
  | some s => s != ""

/-- shouldContinueFetching of src/main.ts lines 282-317: decide, after a page
has been parsed and appended, whether to fetch the next page.  Returns false
(stop) when (1) `nextPageUrl` is falsy, (2) `lastUrl` is truthy and some
accumulated item's link equals it, (3) `lastUrl` is falsy and at least
MAX_ITEMS items are accumulated, or (4) the last accumulated item has a
truthy pubDate that parses to a date before `oneWeekAgo`. -/
def shouldContinueFetching (p : String → Option Int) (items : List NewsItem)
    (lastUrl : Option String) (nextPageUrl : Option String)
    (oneWeekAgo : Int) : Bool :=
  if !jsTruthy nextPageUrl then false
  else if jsTruthy lastUrl && items.any (fun item => item.link == lastUrl.getD "") then false
  else if !jsTruthy lastUrl && decide (MAX_ITEMS ≤ items.length) then false
  else
    match items.getLast? with
    | none => true
    | some latestItem =>
      if latestItem.pubDate != "" then
        match p latestItem.pubDate with
        | some itemDate => if itemDate < oneWeekAgo then false else true
        | none => true
      else true

/-- What one fetched page yields after parseNewsItems and getNextPageUrl:
the extracted items and the (already resolved) next-page link. -/
structure Page where
  items : List NewsItem
  nextPageUrl : Option String
deriving Repr

/-- The `while (true)` pagination loop of generate (src/main.ts lines
439-465), fuel-bounded.  Each iteration fetches and parses the current URL
(`site currentUrl`; `none` aborts the run), stops on an empty item list,
appends the page's items, and consults shouldContinueFetching.  On
continuation the next-page URL is known to be truthy, so `getD ""` is never
the value actually followed. -/
def crawlLoop (p : String → Option Int) (site : String → Option Page)
    (lastUrl : Option String) (oneWeekAgo : Int) :
    Nat → String → List NewsItem → Option (List NewsItem)
  | 0, _, _ => none
  | fuel + 1, currentUrl, allItems =>
    match site currentUrl with
    | none => none
    | some page =>
      if page.items.length = 0 then some allItems
      else if shouldContinueFetching p (allItems ++ page.items) lastUrl
          page.nextPageUrl oneWeekAgo then
        crawlLoop p site lastUrl oneWeekAgo fuel (page.nextPageUrl.getD "")
          (allItems ++ page.items)
      else some (allItems ++ page.items)

/-- allItems.findIndex(item => item.link === lastUrl) of src/main.ts line
469, with JavaScript's -1 result rendered as `none`. -/
def findLinkIdx (lastUrl : String) : List NewsItem → Option Nat
  | [] => none
  | item :: rest =>
    if item.link == lastUrl then some 0
    else (findLinkIdx lastUrl rest).map (· + 1)

/-- The cursor cut of generate (src/main.ts lines 467-473): when the cursor
is truthy and items were accumulated, cut the list strictly before the
first item whose link equals the cursor; keep everything when no item
matches. -/
def cursorCut (lastUrl : Option String) (allItems : List NewsItem) : List NewsItem :=
  if jsTruthy lastUrl && !allItems.isEmpty then
    match findLinkIdx (lastUrl.getD "") allItems with
    | some idx => allItems.take idx
    | none => allItems
  else allItems

/-- The post-crawl filtering of generate (src/main.ts lines 467-478): the
cursor cut followed by truncation to MAX_ITEMS. -/
def postFilter (lastUrl : Option String) (allItems : List NewsItem) : List NewsItem :=
  if MAX_ITEMS < (cursorCut lastUrl allItems).length then
    (cursorCut lastUrl allItems).take MAX_ITEMS
  else cursorCut lastUrl allItems

/-- JavaScript String.prototype.trim: strip leading and trailing
whitespace.  Modelled on the character list so that it evaluates on
literals. -/
def jsTrim (s : String) : String :=
  ⟨((s.data.dropWhile Char.isWhitespace).reverse.dropWhile Char.isWhitespace).reverse⟩

/-- readLastUrl of src/main.ts lines 111-134: under the IGNORE_LAST override
the cursor reads as null; otherwise the LAST file's content is returned
trimmed (`none` = file missing, the cold-start case). -/
def readLastUrl (ignoreLast : Bool) (store : Option String) : Option String :=
  if ignoreLast then none else store.map jsTrim

/-- saveLastUrl of src/main.ts lines 141-158: under the IGNORE_LAST override
the write is skipped and the stored state is unchanged; otherwise the LAST
file is overwritten with `lastUrl`. -/
def saveLastUrl (ignoreLast : Bool) (store : Option String) (lastUrl : String) :
    Option String :=
  if ignoreLast then store else some lastUrl

/-- generate of src/main.ts lines 424-499: read the cursor, crawl, filter,
and - only when at least one item survived - emit the feed and write the
first surviving item's link back as the new cursor.  The result is the
emitted item list together with the cursor-store state after the run
(`none` = the run aborted with an error). -/
def generate (p : String → Option Int) (site : String → Option Page)
    (ignoreLast : Bool) (store : Option String) (entryUrl : String)
    (oneWeekAgo : Int) (fuel : Nat) : Option (List NewsItem × Option String) :=
  match crawlLoop p site (readLastUrl ignoreLast store) oneWeekAgo fuel entryUrl [] with
  | none => none
  | some allItems =>
    match postFilter (readLastUrl ignoreLast store) allItems with
    | [] => some ([], store)
    | first :: rest => some (first :: rest, saveLastUrl ignoreLast store first.link)

/-- Per-source resumption state of the Medium flow (src/unnamed/part_007):
the LAST file and the FETCHED_AT timestamp file. -/
structure MediumState where
  last : Option String
  fetchedAt : Option Int
deriving Repr, DecidableEq

/-- generate of the Medium flow (src/unnamed/part_007 lines 91-170): the
cursor is medium.last, and on a run with surviving items LAST is set to the
first survivor's link and FETCHED_AT to the current time. -/
def generateMedium (p : String → Option Int) (site : String → Option Page)
    (medium : MediumState) (entryUrl : String) (now oneWeekAgo : Int)
    (fuel : Nat) : Option (List NewsItem × MediumState) :=
  match crawlLoop p site medium.last oneWeekAgo fuel entryUrl [] with
  | none => none
  | some allItems =>
    match postFilter medium.last allItems with
    | [] => some ([], medium)
    | first :: rest =>
      some (first :: rest, { last := some first.link, fetchedAt := some now })

/-- formatRssDate of src/rss-generator.ts lines 10-18 under JavaScript
semantics: `new Date(s)` never throws (an unparseable string yields an
Invalid Date), and `Date.prototype.toUTCString` applied to an Invalid Date
returns the string "Invalid Date" (ECMA-262), so the catch branch that
would return the raw text is unreachable.  `toUTC` renders a valid date. -/
def formatRssDate (p : String → Option Int) (toUTC : Int → String)
    (dateStr : String) : String :=
  match p dateStr with
  | some t => toUTC t
  | none => "Invalid Date"

/-- One item element of the feed document built by generateRss
(src/rss-generator.ts lines 51-56). -/
structure RssItem where
  title : String
  link : String
  description : String
  pubDate : String
deriving Repr, DecidableEq

/-- The item list of the feed document built by generateRss
(src/rss-generator.ts lines 27-62): input order is preserved and only
pubDate is rewritten, through formatRssDate. -/
def generateRssItems (p : String → Option Int) (toUTC : Int → String)
    (items : List NewsItem) : List RssItem :=
  items.map fun item =>
    { title := item.title, link := item.link, description := item.description,
      pubDate := formatRssDate p toUTC item.pubDate }

/-- The selector query results for one matched item node on the
declarative-locator path of parseNewsItems (src/html-parser.ts lines
60-105): textContent of the first title/description match, the href
attribute of the first link match, the datetime attribute of the first date
match; `none` = no match, or the matched element lacks the attribute. -/
structure ItemNode where
  titleText : Option String
  linkHref : Option String
  dateAttr : Option String
  descText : Option String

/-- element?.textContent?.trim() ?? "" -/
def textOrEmpty (t : Option String) : String := (t.map jsTrim).getD ""

/-- The NewsItem built for one item node by parseNewsItems
(src/html-parser.ts lines 60-105, declarative-locator path): the raw href
is used verbatim (`?? ""` when absent), with no URL resolution. -/
def extractItem (node : ItemNode) : NewsItem :=
  { title := textOrEmpty node.titleText
    link := node.linkHref.getD ""
    pubDate := node.dateAttr.getD ""
    description := textOrEmpty node.descText }

/-- parseNewsItems (src/html-parser.ts lines 48-108, declarative-locator
path) over the matched item nodes. -/
def parseNewsItems (nodes : List ItemNode) : List NewsItem :=
  nodes.map extractItem

/-- JavaScript String.prototype.startsWith, modelled on the character lists
so that it evaluates on literals. -/
def strStartsWith (s pre : String) : Bool := List.isPrefixOf pre.data s.data

/-- scheme and host of the current page URL; `protocol` includes the
trailing colon exactly as the JavaScript URL.protocol property does. -/
structure UrlParts where
  protocol : String
  host : String

/-- getNextPageUrl (src/html-parser.ts lines 117-150,
declarative-locator path).  `nextLink` is `none` when no nextPageSelector is
matched by any element, `some h` when an element matched with href
attribute `h`.  A root-relative href (leading "/") is resolved against the
current page's scheme and host; an empty or missing href falls through to
null. -/
def getNextPageUrl (selectorConfigured : Bool) (nextLink : Option (Option String))
    (currentUrl : UrlParts) : Option String :=
  if !selectorConfigured then none
  else
    match nextLink with
    | some (some href) =>
      if href != "" then
        if strStartsWith href "/" then
          some (currentUrl.protocol ++ "//" ++ currentUrl.host ++ href)
        else some href
      else none
    | _ => none

/-- A concrete JavaScript-Date semantics for closed evaluations: the listed
calendar dates get their day-of-month of October 2026 as their time value,
every other string (the empty string included) is an Invalid Date. -/
def dayDate : String → Option Int
  | "2026-10-11" => some 11
  | "2026-10-07" => some 7
  | "2026-10-01" => some 1
  | _ => none

/-- A concrete toUTCString rendering for closed evaluations. -/
def utcStub (t : Int) : String := "utc:" ++ toString t

/-! Concrete inputs used by witnesses and counterexamples. -/

/-- A fresh item (run start 2026-10-11, window boundary 2026-10-04). -/
def itemA : NewsItem := ⟨"A", "https://x/a", ".", "2026-10-11"⟩

/-- A second fresh item. -/
def itemB : NewsItem := ⟨"B", "https://x/b", ".", "2026-10-07"⟩

/-- An item whose publish date is ten days before the run start. -/
def staleItem : NewsItem := ⟨"old", "https://x/old", ".", "2026-10-01"⟩

/-- An item extracted with no matching link element: its link is "". -/
def emptyLinkItem : NewsItem := ⟨"t", "", "d", ""⟩

/-- A single-page source with two fresh items and no next-page link. -/
def exSite2 : String → Option Page := fun u =>
  if u = "e" then some ⟨[itemA, itemB], none⟩ else none

/-- A single-page source whose only item has an empty link. -/
def exSite1 : String → Option Page := fun u =>
  if u = "e" then some ⟨[emptyLinkItem], none⟩ else none

/-- A single-page source whose only item is older than the age window. -/
def exSite3 : String → Option Page := fun u =>
  if u = "e" then some ⟨[staleItem], none⟩ else none

/-- Forty accumulated items with non-empty links and empty date text. -/
def c2Items : List NewsItem := List.replicate MAX_ITEMS ⟨"t", "x", "d", ""⟩

/-- What check (4) passing guarantees about the last accumulated item. -/
def lastAgeOk (p : String → Option Int) (wk : Int) (l : List NewsItem) : Prop :=
  ∀ it, l.getLast? = some it → it.pubDate ≠ "" → ∀ t, p it.pubDate = some t → wk ≤ t

/-- Non-strict newest-first ordering of the parsed publish dates along a
list, defaulting unparseable dates to 0. -/
def datesDescend (p : String → Option Int) (l : List NewsItem) : Prop :=
  l.Pairwise fun a b => (p b.pubDate).getD 0 ≤ (p a.pubDate).getD 0

/-! Definitions written from the words of claim C2 (refinement targets). -/

/-- Stop condition (4) exactly as claim C2 words it: the last accumulated
item's publish date parses to a moment earlier than one week ago. -/
def claimAgeCheck (p : String → Option Int) (items : List NewsItem) (wk : Int) : Bool :=
  match items.getLast? with
  | none => true
  | some latest =>
    match p latest.pubDate with
    | some t => if t < wk then false else true
    | none => true

/-- The decision cascade as claim C2 words it, with "a cursor is set" read
literally as "the cursor is non-null" (the claim's own parenthetical). -/
def claimStopOrder (p : String → Option Int) (items : List NewsItem)
    (lastUrl nextPageUrl : Option String) (wk : Int) : Bool :=
  match nextPageUrl with
  | none => false
  | some _ =>
    match lastUrl with
    | some c =>
      if items.any (fun item => item.link == c) then false
      else claimAgeCheck p items wk
    | none =>
      if decide (MAX_ITEMS ≤ items.length) then false
      else claimAgeCheck p items wk

/-- The decision cascade with "a cursor is set" / "a next-page link is
present" read as JavaScript-truthy (non-null and non-empty): the amended
claim C2. -/
def claimStopOrderTruthy (p : String → Option Int) (items : List NewsItem)
    (lastUrl nextPageUrl : Option String) (wk : Int) : Bool :=
  if !jsTruthy nextPageUrl then false
  else if jsTruthy lastUrl then
    (if items.any (fun item => item.link == lastUrl.getD "") then false
     else claimAgeCheck p items wk)
  else
    (if decide (MAX_ITEMS ≤ items.length) then false
     else claimAgeCheck p items wk)

/-! Helper lemmas about the filtering steps. -/

/-- When findLinkIdx finds no match, no item of the list carries the link. -/
theorem findLinkIdx_none {c : String} :
    ∀ {xs : List NewsItem}, findLinkIdx c xs = none → ∀ i ∈ xs, i.link ≠ c := by
  intro xs
  induction xs with
  | nil => intro _ i hi; cases hi
  | cons x t ih =>
    intro h i hi
    unfold findLinkIdx at h
    by_cases hx : x.link == c
    · rw [if_pos hx] at h; cases h
    · rw [if_neg hx] at h
      rw [List.mem_cons] at hi
      rcases hi with rfl | hi
      · simpa using hx
      · exact ih (by simpa using h) i hi

/-- Everything strictly before the first matching index avoids the link. -/
theorem findLinkIdx_take {c : String} :
    ∀ {xs : List NewsItem} {idx : Nat}, findLinkIdx c xs = some idx →
      ∀ i ∈ xs.take idx, i.link ≠ c := by
  intro xs
  induction xs with
  | nil => intro idx h; simp [findLinkIdx] at h
  | cons x t ih =>
    intro idx h i hi
    unfold findLinkIdx at h
    by_cases hx : x.link == c
    · rw [if_pos hx] at h
      cases h
      simp at hi
    · rw [if_neg hx] at h
      obtain ⟨j, hj, hidx⟩ := Option.map_eq_some'.mp h
      subst hidx
      rw [List.take_succ_cons, List.mem_cons] at hi
      rcases hi with rfl | hi
      · simpa using hx
      · exact ih hj i hi

/-- The cursor cut always returns an initial segment of its input. -/
theorem cursorCut_eq_take (lastUrl : Option String) (xs : List NewsItem) :
    ∃ n, cursorCut lastUrl xs = xs.take n := by
  unfold cursorCut
  split
  · cases hf : findLinkIdx (lastUrl.getD "") xs with
    | none => exact ⟨xs.length, (List.take_length xs).symm⟩
    | some idx => exact ⟨idx, rfl⟩
  · exact ⟨xs.length, (List.take_length xs).symm⟩

/-- postFilter always returns an initial segment of its input. -/
theorem postFilter_eq_take (lastUrl : Option String) (xs : List NewsItem) :
    ∃ n, postFilter lastUrl xs = xs.take n := by
  obtain ⟨m, hm⟩ := cursorCut_eq_take lastUrl xs
  unfold postFilter
  rw [hm]
  split
  · exact ⟨min MAX_ITEMS m, by rw [List.take_take]⟩
  · exact ⟨m, rfl⟩

/-- postFilter never returns more than MAX_ITEMS items. -/
theorem postFilter_length_le (lastUrl : Option String) (xs : List NewsItem) :
    (postFilter lastUrl xs).length ≤ MAX_ITEMS := by
  unfold postFilter
  by_cases h : MAX_ITEMS < (cursorCut lastUrl xs).length
  · rw [if_pos h]; simp [List.length_take]
  · rw [if_neg h]; omega

/-- Members of the postFilter output are members of the input. -/
theorem postFilter_subset {lastUrl : Option String} {xs : List NewsItem} :
    ∀ i ∈ postFilter lastUrl xs, i ∈ xs := by
  obtain ⟨n, hn⟩ := postFilter_eq_take lastUrl xs
  rw [hn]
  exact fun i hi => List.take_subset n xs hi

/-- A nonempty initial segment starts with the head of the original list. -/
theorem take_eq_cons_head {α : Type} {xs : List α} {n : Nat} {f : α} {r : List α}
    (h : xs.take n = f :: r) : ∃ t, xs = f :: t := by
  cases xs with
  | nil => simp at h
  | cons a as =>
    cases n with
    | zero => simp at h
    | succ m =>
      rw [List.take_succ_cons] at h
      injection h with h1 _
      exact ⟨as, by rw [h1]⟩

/-- A nonempty postFilter output starts with the head of its input. -/
theorem postFilter_head {lastUrl : Option String} {xs : List NewsItem}
    {f : NewsItem} {r : List NewsItem} (h : postFilter lastUrl xs = f :: r) :
    ∃ t, xs = f :: t := by
  obtain ⟨n, hn⟩ := postFilter_eq_take lastUrl xs
  rw [hn] at h
  exact take_eq_cons_head h

/-- With a truthy cursor, the cursor cut removes every item carrying it. -/
theorem cursorCut_excludes {c : String} (hc : c ≠ "") (xs : List NewsItem) :
    ∀ i ∈ cursorCut (some c) xs, i.link ≠ c := by
  intro i hi
  unfold cursorCut at hi
  split at hi
  · have hg : (some c).getD "" = c := rfl
    rw [hg] at hi
    cases hf : findLinkIdx c xs with
    | none => rw [hf] at hi; exact findLinkIdx_none hf i hi
    | some idx => rw [hf] at hi; exact findLinkIdx_take hf i hi
  · rename_i hcond
    have hxe : xs = [] := by
      cases xs with
      | nil => rfl
      | cons a as => exact absurd (by simp [jsTruthy, hc]) hcond
    subst hxe
    cases hi

/-- With a truthy cursor, no postFilter output item carries it. -/
theorem postFilter_excludes {c : String} (hc : c ≠ "") (xs : List NewsItem) :
    ∀ i ∈ postFilter (some c) xs, i.link ≠ c := by
  intro i hi
  unfold postFilter at hi
  have hsub : i ∈ cursorCut (some c) xs := by
    split at hi
    · exact List.take_subset _ _ hi
    · exact hi
  exact cursorCut_excludes hc xs i hsub

/-! Helper lemmas about the crawl loop. -/

/-- One unfolding of the fuelled loop. -/
theorem crawlLoop_succ (p : String → Option Int) (site : String → Option Page)
    (lastUrl : Option String) (wk : Int) (fuel : Nat) (u : String)
    (allItems : List NewsItem) :
    crawlLoop p site lastUrl wk (fuel + 1) u allItems =
      match site u with
      | none => none
      | some page =>
        if page.items.length = 0 then some allItems
        else if shouldContinueFetching p (allItems ++ page.items) lastUrl
            page.nextPageUrl wk then
          crawlLoop p site lastUrl wk fuel (page.nextPageUrl.getD "")
            (allItems ++ page.items)
        else some (allItems ++ page.items) := rfl

/-- The crawl loop only ever appends to its accumulator. -/
theorem crawlLoop_acc {p : String → Option Int} {site : String → Option Page}
    {lastUrl : Option String} {wk : Int} :
    ∀ {fuel : Nat} {u : String} {acc res : List NewsItem},
      crawlLoop p site lastUrl wk fuel u acc = some res → ∃ t, res = acc ++ t := by
  intro fuel
  induction fuel with
  | zero => intro u acc res h; simp [crawlLoop] at h
  | succ n ih =>
    intro u acc res h
    rw [crawlLoop_succ] at h
    cases hs : site u with
    | none => rw [hs] at h; cases h
    | some page =>
      simp only [hs] at h
      by_cases hlen : page.items.length = 0
      · rw [if_pos hlen] at h
        cases h
        exact ⟨[], by simp⟩
      · rw [if_neg hlen] at h
        by_cases hcont :
            shouldContinueFetching p (acc ++ page.items) lastUrl page.nextPageUrl wk
        · rw [if_pos hcont] at h
          obtain ⟨t, ht⟩ := ih h
          exact ⟨page.items ++ t, by rw [ht, List.append_assoc]⟩
        · rw [if_neg hcont] at h
          cases h
          exact ⟨page.items, rfl⟩

/-- A successful crawl with a non-empty result fetched its entry page, whose
item list is non-empty and starts the result. -/
theorem crawlLoop_entry {p : String → Option Int} {site : String → Option Page}
    {lastUrl : Option String} {wk : Int} {fuel : Nat} {u : String}
    {res : List NewsItem}
    (h : crawlLoop p site lastUrl wk fuel u [] = some res) (hne : res ≠ []) :
    ∃ page t, site u = some page ∧ page.items ≠ [] ∧ res = page.items ++ t := by
  cases fuel with
  | zero => simp [crawlLoop] at h
  | succ n =>
    rw [crawlLoop_succ] at h
    cases hs : site u with
    | none => rw [hs] at h; cases h
    | some page =>
      simp only [hs] at h
      by_cases hlen : page.items.length = 0
      · rw [if_pos hlen] at h
        cases h
        exact absurd rfl hne
      · rw [if_neg hlen] at h
        have hpne : page.items ≠ [] := by
          intro he; exact hlen (by simp [he])
        by_cases hcont :
            shouldContinueFetching p ([] ++ page.items) lastUrl page.nextPageUrl wk
        · rw [if_pos hcont] at h
          obtain ⟨t, ht⟩ := crawlLoop_acc h
          exact ⟨page, t, rfl, hpne, by simpa using ht⟩
        · rw [if_neg hcont] at h
          cases h
          exact ⟨page, [], rfl, hpne, by simp⟩

/-- The loop stops as soon as a truthy cursor matches an accumulated item. -/
theorem shouldContinue_stops_at_cursor {p : String → Option Int}
    {items : List NewsItem} {c : String} {next : Option String} {wk : Int}
    (hc : c ≠ "") (hmem : ∃ i ∈ items, i.link = c) :
    shouldContinueFetching p items (some c) next wk = false := by
  unfold shouldContinueFetching
  cases hn : jsTruthy next with
  | false => rfl
  | true =>
    have hcond :
        (jsTruthy (some c) && items.any fun item => item.link == (some c).getD "") = true := by
      obtain ⟨i, hi, hl⟩ := hmem
      have h1 : jsTruthy (some c) = true := by simp [jsTruthy, hc]
      have h2 : (items.any fun item => item.link == (some c).getD "") = true := by
        rw [List.any_eq_true]
        exact ⟨i, hi, by simp [hl]⟩
      rw [h1, h2]; rfl
    rw [hcond]
    rfl

/-- With the age condition of check (4) triggered the loop always stops. -/
theorem shouldContinue_age_stop {p : String → Option Int} {items : List NewsItem}
    {lastUrl next : Option String} {wk : Int} {it : NewsItem} {t : Int}
    (hlast : items.getLast? = some it) (hne : it.pubDate ≠ "")
    (hp : p it.pubDate = some t) (hlt : t < wk) :
    shouldContinueFetching p items lastUrl next wk = false := by
  unfold shouldContinueFetching
  split
  · rfl
  · split
    · rfl
    · split
      · rfl
      · simp only [hlast]
        have hb : (it.pubDate != "") = true := bne_iff_ne.mpr hne
        rw [if_pos hb]
        simp only [hp]
        rw [if_pos hlt]

/-- A continuing loop has a last accumulated item that passed check (4). -/
theorem shouldContinue_lastAgeOk {p : String → Option Int} {items : List NewsItem}
    {lastUrl next : Option String} {wk : Int}
    (h : shouldContinueFetching p items lastUrl next wk = true) :
    lastAgeOk p wk items := by
  intro it hlast hne t hp
  by_contra hlt
  push_neg at hlt
  rw [shouldContinue_age_stop hlast hne hp hlt] at h
  cases h

/-- Decomposition of a successful crawl: the result is the accumulator or a
block whose last item passed the age check, followed by the item list of at
most one further fetched page. -/
theorem crawlLoop_decomp {p : String → Option Int} {site : String → Option Page}
    {lastUrl : Option String} {wk : Int} :
    ∀ {fuel : Nat} {u : String} {acc res : List NewsItem},
      crawlLoop p site lastUrl wk fuel u acc = some res →
      ∃ front pageItems, res = front ++ pageItems
        ∧ (front = acc ∨ lastAgeOk p wk front)
        ∧ (pageItems = [] ∨ ∃ u2 pg, site u2 = some pg ∧ pageItems = pg.items) := by
  intro fuel
  induction fuel with
  | zero => intro u acc res h; simp [crawlLoop] at h
  | succ n ih =>
    intro u acc res h
    rw [crawlLoop_succ] at h
    cases hs : site u with
    | none => rw [hs] at h; cases h
    | some page =>
      simp only [hs] at h
      by_cases hlen : page.items.length = 0
      · rw [if_pos hlen] at h
        cases h
        exact ⟨acc, [], by simp, Or.inl rfl, Or.inl rfl⟩
      · rw [if_neg hlen] at h
        by_cases hcont :
            shouldContinueFetching p (acc ++ page.items) lastUrl page.nextPageUrl wk
        · rw [if_pos hcont] at h
          obtain ⟨front, pi, hres, hfront, hpi⟩ := ih h
          rcases hfront with rfl | hok
          · exact ⟨acc ++ page.items, pi, hres,
              Or.inr (shouldContinue_lastAgeOk hcont), hpi⟩
          · exact ⟨front, pi, hres, Or.inr hok, hpi⟩
        · rw [if_neg hcont] at h
          cases h
          exact ⟨acc, page.items, rfl, Or.inl rfl, Or.inr ⟨u, page, hs, rfl⟩⟩

/-- A descending block of parseable dates whose last item passed the age
check lies entirely within the age window. -/
theorem front_fresh {p : String → Option Int} {wk : Int} {front : List NewsItem}
    (hfaith : p "" = none)
    (hparse : ∀ i ∈ front, (p i.pubDate).isSome = true)
    (hdesc : datesDescend p front)
    (hok : lastAgeOk p wk front) :
    ∀ i ∈ front, ∀ t, p i.pubDate = some t → wk ≤ t := by
  rcases List.eq_nil_or_concat front with rfl | ⟨l2, b, rfl⟩
  · intro i hi; cases hi
  · rw [List.concat_eq_append] at hparse hdesc hok ⊢
    intro i hi t hp
    have hbmem : b ∈ l2 ++ [b] := by simp
    obtain ⟨tb, htb⟩ := Option.isSome_iff_exists.mp (hparse b hbmem)
    have hbne : b.pubDate ≠ "" := by
      intro he
      rw [he, hfaith] at htb
      cases htb
    have hwk : wk ≤ tb := hok b (by simp [List.getLast?_concat]) hbne tb htb
    rw [List.mem_append] at hi
    rcases hi with hi | hi
    · have hr := (List.pairwise_append.mp hdesc).2.2 i hi b (by simp)
      rw [htb, hp] at hr
      simp at hr
      omega
    · simp at hi
      subst hi
      rw [hp] at htb
      injection htb with he
      omega

/-- For a date semantics on which the empty string does not parse, the
source's inlined check (4) coincides with the claim's wording of it. -/
theorem sourceAge_eq_claimAge {p : String → Option Int} (hfaith : p "" = none)
    (items : List NewsItem) (wk : Int) :
    (match items.getLast? with
      | none => true
      | some latestItem =>
        if latestItem.pubDate != "" then
          match p latestItem.pubDate with
          | some itemDate => if itemDate < wk then false else true
          | none => true
        else true) = claimAgeCheck p items wk := by
  unfold claimAgeCheck
  cases hgl : items.getLast? with
  | none => rfl
  | some it =>
    show (if (it.pubDate != "") = true then
        match p it.pubDate with
        | some itemDate => if itemDate < wk then false else true
        | none => true
      else true) =
      match p it.pubDate with
      | some t => if t < wk then false else true
      | none => true
    by_cases hpd : it.pubDate = ""
    · simp [hpd, hfaith]
    · have hb : (it.pubDate != "") = true := bne_iff_ne.mpr hpd
      rw [if_pos hb]

/-! Claim C2. -/

/-- C2 (amended): under any date semantics on which the empty string does
not parse (true of JavaScript Date), the crawl-continuation decision equals
the claim's fixed cascade next-page, then cursor, then cap, then age, with
"a cursor is set" / "a next-page link is present" read as JavaScript-truthy
(non-null and non-empty). -/
theorem claim2_stop_order (p : String → Option Int) (items : List NewsItem)
    (lastUrl nextPageUrl : Option String) (wk : Int) (hfaith : p "" = none) :
    shouldContinueFetching p items lastUrl nextPageUrl wk =
      claimStopOrderTruthy p items lastUrl nextPageUrl wk := by
  unfold shouldContinueFetching claimStopOrderTruthy
  rw [sourceAge_eq_claimAge hfaith]
  cases hn : jsTruthy nextPageUrl with
  | false => rfl
  | true =>
    cases hl : jsTruthy lastUrl with
    | true =>
      cases ha : items.any fun item => item.link == lastUrl.getD "" <;> simp
    | false =>
      cases hm : decide (MAX_ITEMS ≤ items.length) <;> simp [hm]

/-- Witness for claim C2: the equivalence applied at a concrete input. -/
theorem claim2_stop_order_witness :
    dayDate "" = none ∧
      shouldContinueFetching dayDate [itemA] (some "c") (some "n") 4 =
        claimStopOrderTruthy dayDate [itemA] (some "c") (some "n") 4 :=
  ⟨rfl, claim2_stop_order dayDate [itemA] (some "c") (some "n") 4 rfl⟩

/-- Counterexample to claim C2 as stated: with the reachable state of an
empty-string cursor (a whitespace-only LAST file trims to ""), forty
accumulated items and a next page present, the code stops at the item cap
while the claim's cascade (cursor "set" = non-null) continues. -/
theorem claim2_counterexample :
    shouldContinueFetching dayDate c2Items (some "") (some "n") 4 = false
      ∧ claimStopOrder dayDate c2Items (some "") (some "n") 4 = true := by
  exact ⟨rfl, rfl⟩

/-! Claim C3. -/

/-- C3: every successful run emits at most MAX_ITEMS = 40 items, with or
without a cursor and with or without the ignore-resumption override. -/
theorem claim3_cap_invariant {p : String → Option Int} {site : String → Option Page}
    {ignoreLast : Bool} {store : Option String} {entryUrl : String} {wk : Int}
    {fuel : Nat} {out : List NewsItem} {st : Option String}
    (h : generate p site ignoreLast store entryUrl wk fuel = some (out, st)) :
    out.length ≤ MAX_ITEMS := by
  unfold generate at h
  cases hcr : crawlLoop p site (readLastUrl ignoreLast store) wk fuel entryUrl [] with
  | none => rw [hcr] at h; cases h
  | some allItems =>
    simp only [hcr] at h
    cases hpf : postFilter (readLastUrl ignoreLast store) allItems with
    | nil =>
      simp only [hpf, Option.some.injEq, Prod.mk.injEq] at h
      rw [← h.1]
      simp
    | cons f r =>
      simp only [hpf, Option.some.injEq, Prod.mk.injEq] at h
      rw [← h.1, ← hpf]
      exact postFilter_length_le _ _

/-- Witness for claim C3: a concrete successful run is capped. -/
theorem claim3_cap_invariant_witness :
    generate dayDate exSite2 false none "e" 4 2 = some ([itemA, itemB], some "https://x/a")
      ∧ ([itemA, itemB] : List NewsItem).length ≤ MAX_ITEMS :=
  ⟨rfl, claim3_cap_invariant
    (rfl : generate dayDate exSite2 false none "e" 4 2
      = some ([itemA, itemB], some "https://x/a"))⟩

/-! Claim C10. -/

/-- C10: an empty-string cursor (a LAST file whose content trims to "")
behaves exactly like no cursor: the continuation decision (so the cap stop
applies and the cursor stop never fires), the crawl and the post-filtering
all coincide with the cursor-less run, and the items emitted by a run whose
stored cursor trims to "" equal those of a cursor-less run. -/
theorem claim10_empty_cursor (p : String → Option Int) (site : String → Option Page)
    (items : List NewsItem) (next : Option String) (wk : Int) (fuel : Nat)
    (u : String) (acc xs : List NewsItem) :
    shouldContinueFetching p items (some "") next wk
        = shouldContinueFetching p items none next wk
      ∧ postFilter (some "") xs = postFilter none xs
      ∧ crawlLoop p site (some "") wk fuel u acc = crawlLoop p site none wk fuel u acc
      ∧ ∀ w, jsTrim w = "" →
          (generate p site false (some w) u wk fuel).map Prod.fst
            = (generate p site false none u wk fuel).map Prod.fst := by
  have hloop : ∀ fuel2 u2 acc2, crawlLoop p site (some "") wk fuel2 u2 acc2
      = crawlLoop p site none wk fuel2 u2 acc2 := by
    intro fuel2
    induction fuel2 with
    | zero => intro u2 acc2; rfl
    | succ n ih =>
      intro u2 acc2
      rw [crawlLoop_succ, crawlLoop_succ]
      cases site u2 with
      | none => rfl
      | some page =>
        dsimp only
        by_cases hlen : page.items.length = 0
        · rw [if_pos hlen, if_pos hlen]
        · rw [if_neg hlen, if_neg hlen]
          have hsc : shouldContinueFetching p (acc2 ++ page.items) (some "")
              page.nextPageUrl wk
              = shouldContinueFetching p (acc2 ++ page.items) none
                page.nextPageUrl wk := rfl
          rw [hsc]
          by_cases hc :
              shouldContinueFetching p (acc2 ++ page.items) none page.nextPageUrl wk
          · rw [if_pos hc, if_pos hc, ih]
          · rw [if_neg hc, if_neg hc]
  refine ⟨rfl, rfl, hloop fuel u acc, ?_⟩
  intro w hw
  unfold generate
  have hr : readLastUrl false (some w) = some "" := by
    simp [readLastUrl, hw]
  rw [hr]
  have hr2 : readLastUrl false none = (none : Option String) := rfl
  rw [hr2]
  rw [hloop fuel u []]
  cases crawlLoop p site none wk fuel u [] with
  | none => rfl
  | some allItems =>
    dsimp only
    have hpf : postFilter (some "") allItems = postFilter none allItems := rfl
    rw [hpf]
    cases postFilter none allItems with
    | nil => rfl
    | cons f r => rfl

/-- Witness for claim C10: concrete empty-cursor runs coincide with
cursor-less runs. -/
theorem claim10_empty_cursor_witness :
    (shouldContinueFetching dayDate [itemA] (some "") (some "n") 4
        = shouldContinueFetching dayDate [itemA] none (some "n") 4)
      ∧ jsTrim " " = ""
      ∧ (generate dayDate exSite1 false (some " ") "e" 4 1).map Prod.fst
          = (generate dayDate exSite1 false none "e" 4 1).map Prod.fst := by
  refine ⟨(claim10_empty_cursor dayDate exSite1 [itemA] (some "n") 4 1 "e" [] []).1,
    by decide, ?_⟩
  exact (claim10_empty_cursor dayDate exSite1 [itemA] (some "n") 4 1 "e" [] []).2.2.2
    " " (by decide)

/-! Claim C6. -/

/-- C6: with the ignore-resumption override active, the cursor store is
never written: the state after any successful run equals the state before
it (the readLastUrl/saveLastUrl flow of src/main.ts; the part_007 Medium
flow does not consult the override at all). -/
theorem claim6_override_no_write {p : String → Option Int} {site : String → Option Page}
    {store : Option String} {u : String} {wk : Int} {fuel : Nat}
    {out : List NewsItem} {st : Option String}
    (h : generate p site true store u wk fuel = some (out, st)) : st = store := by
  unfold generate at h
  cases hcr : crawlLoop p site (readLastUrl true store) wk fuel u [] with
  | none => rw [hcr] at h; cases h
  | some res =>
    simp only [hcr] at h
    cases hpf : postFilter (readLastUrl true store) res with
    | nil =>
      simp only [hpf, Option.some.injEq, Prod.mk.injEq] at h
      exact h.2.symm
    | cons f r =>
      simp only [hpf, Option.some.injEq, Prod.mk.injEq] at h
      rw [← h.2]
      rfl

/-- Witness for claim C6: a concrete override run leaves the store intact. -/
theorem claim6_override_no_write_witness :
    generate dayDate exSite2 true (some "z") "e" 4 2 = some ([itemA, itemB], some "z")
      ∧ (some "z" : Option String) = some "z" :=
  ⟨rfl, claim6_override_no_write
    (rfl : generate dayDate exSite2 true (some "z") "e" 4 2
      = some ([itemA, itemB], some "z"))⟩

/-! Claim C5. -/

/-- C5: on a successful run with surviving items and the override inactive,
the cursor written afterwards equals the first emitted item's link, and in
the Medium flow the FETCHED_AT timestamp is additionally set to the current
time. -/
theorem claim5_cursor_monotonic {p : String → Option Int} {site : String → Option Page}
    {store : Option String} {u : String} {wk : Int} {fuel : Nat}
    {first : NewsItem} {rest : List NewsItem} :
    (∀ st1, generate p site false store u wk fuel = some (first :: rest, st1) →
        st1 = some first.link)
      ∧ ∀ med now st2,
          generateMedium p site med u now wk fuel = some (first :: rest, st2) →
            st2.last = some first.link ∧ st2.fetchedAt = some now := by
  constructor
  · intro st1 h
    unfold generate at h
    cases hcr : crawlLoop p site (readLastUrl false store) wk fuel u [] with
    | none => rw [hcr] at h; cases h
    | some res =>
      simp only [hcr] at h
      cases hpf : postFilter (readLastUrl false store) res with
      | nil => simp only [hpf] at h; simp at h
      | cons f r =>
        simp only [hpf, Option.some.injEq, Prod.mk.injEq, List.cons.injEq] at h
        obtain ⟨⟨hf, -⟩, hst⟩ := h
        rw [← hst, hf]
        rfl
  · intro med now st2 h
    unfold generateMedium at h
    cases hcr : crawlLoop p site med.last wk fuel u [] with
    | none => rw [hcr] at h; cases h
    | some res =>
      simp only [hcr] at h
      cases hpf : postFilter med.last res with
      | nil => simp only [hpf] at h; simp at h
      | cons f r =>
        simp only [hpf, Option.some.injEq, Prod.mk.injEq, List.cons.injEq] at h
        obtain ⟨⟨hf, -⟩, hst⟩ := h
        rw [← hst, hf]
        exact ⟨rfl, rfl⟩

/-- Witness for claim C5: concrete non-empty runs in both flows. -/
theorem claim5_cursor_monotonic_witness :
    generate dayDate exSite2 false none "e" 4 2
        = some (itemA :: [itemB], some "https://x/a")
      ∧ (some "https://x/a" : Option String) = some itemA.link
      ∧ generateMedium dayDate exSite2 ⟨none, none⟩ "e" 99 4 2
          = some (itemA :: [itemB], ⟨some "https://x/a", some 99⟩)
      ∧ (⟨some "https://x/a", some 99⟩ : MediumState).last = some itemA.link
      ∧ (⟨some "https://x/a", some 99⟩ : MediumState).fetchedAt = some 99 := by
  have h := @claim5_cursor_monotonic dayDate exSite2 none "e" 4 2 itemA [itemB]
  refine ⟨rfl, ?_, rfl, ?_, ?_⟩
  · exact h.1 (some "https://x/a") rfl
  · exact (h.2 ⟨none, none⟩ 99 ⟨some "https://x/a", some 99⟩ rfl).1
  · exact (h.2 ⟨none, none⟩ 99 ⟨some "https://x/a", some 99⟩ rfl).2

/-! Claim C4. -/

/-- C4 (amended): when the cursor read before the run is non-null AND
non-empty, no emitted item's link equals it. -/
theorem claim4_cursor_exclusivity {p : String → Option Int} {site : String → Option Page}
    {ignoreLast : Bool} {store : Option String} {u : String} {wk : Int}
    {fuel : Nat} {out : List NewsItem} {st : Option String} {c : String}
    (h : generate p site ignoreLast store u wk fuel = some (out, st))
    (hread : readLastUrl ignoreLast store = some c) (hc : c ≠ "") :
    ∀ i ∈ out, i.link ≠ c := by
  unfold generate at h
  rw [hread] at h
  cases hcr : crawlLoop p site (some c) wk fuel u [] with
  | none => rw [hcr] at h; cases h
  | some res =>
    simp only [hcr] at h
    cases hpf : postFilter (some c) res with
    | nil =>
      simp only [hpf, Option.some.injEq, Prod.mk.injEq] at h
      rw [← h.1]
      intro i hi
      cases hi
    | cons f r =>
      simp only [hpf, Option.some.injEq, Prod.mk.injEq] at h
      rw [← h.1]
      intro i hi
      exact postFilter_excludes hc res i (by rw [hpf]; exact hi)

/-- Witness for claim C4: a concrete warm run excludes the cursor link. -/
theorem claim4_cursor_exclusivity_witness :
    generate dayDate exSite2 false (some "https://x/b") "e" 4 2
        = some ([itemA], some "https://x/a")
      ∧ readLastUrl false (some "https://x/b") = some "https://x/b"
      ∧ "https://x/b" ≠ ""
      ∧ ∀ i ∈ ([itemA] : List NewsItem), i.link ≠ "https://x/b" := by
  refine ⟨rfl, by decide, by decide, ?_⟩
  exact claim4_cursor_exclusivity
    (rfl : generate dayDate exSite2 false (some "https://x/b") "e" 4 2
      = some ([itemA], some "https://x/a"))
    (by decide) (by decide)

/-- Counterexample to claim C4 as stated: a whitespace-only LAST file reads
as the non-null cursor "", which is falsy, so no post-filtering happens and
the output contains an item whose link equals that cursor. -/
theorem claim4_counterexample :
    readLastUrl false (some " ") = some ""
      ∧ generate dayDate exSite1 false (some " ") "e" 4 1
          = some ([emptyLinkItem], some "")
      ∧ emptyLinkItem.link = "" := by
  exact ⟨by decide, rfl, rfl⟩

/-! Claim C1. -/

/-- C1 (amended): after a successful run whose output starts with an item
whose link is non-empty and unchanged by trimming, a second run over
identical upstream content yields an empty output and leaves the persisted
cursor unchanged (an empty run performs no write). -/
theorem claim1_idempotent {p : String → Option Int} {site : String → Option Page}
    {store : Option String} {u : String} {wk1 wk2 : Int} {fuel1 fuel2 : Nat}
    {first : NewsItem} {rest : List NewsItem} {st1 : Option String}
    (h1 : generate p site false store u wk1 fuel1 = some (first :: rest, st1))
    (hne : first.link ≠ "") (htrim : jsTrim first.link = first.link) :
    generate p site false st1 u wk2 (fuel2 + 1) = some ([], st1) := by
  unfold generate at h1
  cases hcr : crawlLoop p site (readLastUrl false store) wk1 fuel1 u [] with
  | none => rw [hcr] at h1; cases h1
  | some res =>
    simp only [hcr] at h1
    cases hpf : postFilter (readLastUrl false store) res with
    | nil => simp only [hpf] at h1; simp at h1
    | cons f r =>
      simp only [hpf, Option.some.injEq, Prod.mk.injEq, List.cons.injEq] at h1
      obtain ⟨⟨hf, -⟩, hst⟩ := h1
      rw [hf] at hpf hst
      have hst1 : st1 = some first.link := by rw [← hst]; rfl
      obtain ⟨t0, hres⟩ := postFilter_head hpf
      have hresne : res ≠ [] := by rw [hres]; simp
      obtain ⟨page, tl, hsite, hpne, hres2⟩ := crawlLoop_entry hcr hresne
      cases hpi : page.items with
      | nil => exact absurd hpi hpne
      | cons q qt =>
        rw [hpi] at hres2
        rw [hres, List.cons_append] at hres2
        injection hres2 with hq hres3
        subst hq
        subst hst1
        unfold generate
        have hread : readLastUrl false (some first.link) = some first.link := by
          simp [readLastUrl, htrim]
        rw [hread]
        have hstop : shouldContinueFetching p page.items (some first.link)
            page.nextPageUrl wk2 = false := by
          apply shouldContinue_stops_at_cursor hne
          exact ⟨first, by simp [hpi], rfl⟩
        have hcrawl : crawlLoop p site (some first.link) wk2 (fuel2 + 1) u []
            = some page.items := by
          rw [crawlLoop_succ]
          simp only [hsite]
          rw [if_neg (by simp [hpi])]
          rw [if_neg (by simp [hstop])]
          simp
        rw [hcrawl]
        have hcut : cursorCut (some first.link) page.items = [] := by
          unfold cursorCut
          rw [if_pos (by simp [jsTruthy, hne, hpi] :
            (jsTruthy (some first.link) && !page.items.isEmpty) = true)]
          have hfi : findLinkIdx ((some first.link).getD "") page.items = some 0 := by
            rw [hpi]
            unfold findLinkIdx
            simp
          simp only [hfi]
          rfl
        have hpfe : postFilter (some first.link) page.items = [] := by
          unfold postFilter
          rw [hcut]
          rfl
        simp only [hpfe]

/-- Witness for amended C1: a two-item source with ordinary links; the
second run is empty and leaves the cursor untouched. -/
theorem claim1_idempotent_witness :
    generate dayDate exSite2 false none "e" 4 2
        = some (itemA :: [itemB], some "https://x/a")
      ∧ itemA.link ≠ ""
      ∧ jsTrim itemA.link = itemA.link
      ∧ generate dayDate exSite2 false (some "https://x/a") "e" 4 (1 + 1)
          = some ([], some "https://x/a") := by
  refine ⟨rfl, by decide, by decide, ?_⟩
  exact claim1_idempotent
    (rfl : generate dayDate exSite2 false none "e" 4 2
      = some (itemA :: [itemB], some "https://x/a"))
    (by decide) (by decide)

/-- Counterexample to claim C1 as stated: a source whose only item has an
empty link.  The first run succeeds, emits the item and persists its link
"" as the cursor; the second run over identical upstream content reads the
cursor as falsy and emits the same non-empty output again. -/
theorem claim1_counterexample :
    generate dayDate exSite1 false none "e" 4 1 = some ([emptyLinkItem], some "")
      ∧ generate dayDate exSite1 false (some "") "e" 4 1
          = some ([emptyLinkItem], some "")
      ∧ ([emptyLinkItem] : List NewsItem) ≠ [] := by
  exact ⟨rfl, rfl, by simp⟩

/-! Claim C7. -/

/-- C7 (amended): over a run whose accumulated items carry parseable publish
dates in descending (newest-first) order, under a date semantics on which
the empty string does not parse, the accumulated list splits into a
within-window block followed by the item list of at most one fetched page,
and every emitted item older than the one-week boundary lies in that final
page block.  (The claim as stated fails: the loop stops only after the
whole stale page has been appended, so the final page's stale items are
still emitted.) -/
theorem claim7_age_window {p : String → Option Int} {site : String → Option Page}
    {lastUrl : Option String} {wk : Int} {fuel : Nat} {u : String}
    {res : List NewsItem}
    (hrun : crawlLoop p site lastUrl wk fuel u [] = some res)
    (hfaith : p "" = none)
    (hparse : ∀ i ∈ res, (p i.pubDate).isSome = true)
    (hdesc : datesDescend p res) :
    ∃ front pageItems, res = front ++ pageItems
      ∧ (∀ i ∈ front, ∀ t, p i.pubDate = some t → wk ≤ t)
      ∧ (pageItems = [] ∨ ∃ u2 pg, site u2 = some pg ∧ pageItems = pg.items)
      ∧ ∀ i ∈ postFilter lastUrl res, ∀ t, p i.pubDate = some t → t < wk →
          i ∈ pageItems := by
  obtain ⟨front, pi, hres, hfront, hpi⟩ := crawlLoop_decomp hrun
  have hfrok : lastAgeOk p wk front := by
    rcases hfront with rfl | hok
    · intro it hlast
      simp at hlast
    · exact hok
  have hfresh : ∀ i ∈ front, ∀ t, p i.pubDate = some t → wk ≤ t := by
    apply front_fresh hfaith
    · intro i hi
      exact hparse i (by rw [hres]; exact List.mem_append_left _ hi)
    · have hsub : List.Sublist front res := by
        rw [hres]; exact List.sublist_append_left front pi
      exact hdesc.sublist hsub
    · exact hfrok
  refine ⟨front, pi, hres, hfresh, hpi, ?_⟩
  intro i hi t hp hlt
  have himem : i ∈ res := postFilter_subset i hi
  rw [hres, List.mem_append] at himem
  rcases himem with him | him
  · exact absurd (hfresh i him t hp) (by omega)
  · exact him

/-- Witness for amended C7: a concrete descending two-page-capable run. -/
theorem claim7_age_window_witness :
    crawlLoop dayDate exSite2 none 4 2 "e" [] = some [itemA, itemB]
      ∧ dayDate "" = none
      ∧ (∀ i ∈ ([itemA, itemB] : List NewsItem), (dayDate i.pubDate).isSome = true)
      ∧ datesDescend dayDate [itemA, itemB]
      ∧ ∃ front pageItems, ([itemA, itemB] : List NewsItem) = front ++ pageItems
          ∧ (∀ i ∈ front, ∀ t, dayDate i.pubDate = some t → (4 : Int) ≤ t)
          ∧ (pageItems = [] ∨ ∃ u2 pg, exSite2 u2 = some pg ∧ pageItems = pg.items)
          ∧ ∀ i ∈ postFilter none [itemA, itemB], ∀ t,
              dayDate i.pubDate = some t → t < 4 → i ∈ pageItems := by
  have hdesc : datesDescend dayDate [itemA, itemB] := by
    unfold datesDescend
    decide
  refine ⟨rfl, rfl, by decide, hdesc, ?_⟩
  exact claim7_age_window
    (rfl : crawlLoop dayDate exSite2 none 4 2 "e" [] = some [itemA, itemB])
    rfl (by decide) hdesc

/-- Counterexample to claim C7 as stated: a single-page source in (trivially)
strictly descending order whose only item is ten days old; the run emits it
although its date is well before the one-week boundary. -/
theorem claim7_counterexample :
    generate dayDate exSite3 false none "e" 4 1
        = some ([staleItem], some "https://x/old")
      ∧ datesDescend dayDate [staleItem]
      ∧ dayDate staleItem.pubDate = some 1
      ∧ (1 : Int) < 4 := by
  refine ⟨rfl, ?_, rfl, by decide⟩
  unfold datesDescend
  decide

/-! Claim C8. -/

/-- C8: formatRssDate renders parseable dates through toUTCString, but on an
unparseable date it emits the fixed string "Invalid Date" instead of the
raw text: in JavaScript, new Date never throws and toUTCString on an
Invalid Date returns "Invalid Date", so the catch fallback that the code
(and the spec) intend - "using original" - is dead code. -/
theorem claim8_date_normalization :
    generateRssItems dayDate utcStub
        [⟨"ok", "l1", "d", "2026-10-11"⟩, ⟨"bad", "l2", "d", "not a date"⟩]
      = [⟨"ok", "l1", "d", utcStub 11⟩, ⟨"bad", "l2", "d", "Invalid Date"⟩]
      ∧ formatRssDate dayDate utcStub "not a date" = "Invalid Date"
      ∧ "Invalid Date" ≠ "not a date" :=
  ⟨rfl, rfl, by decide⟩

/-! Claim C9. -/

/-- C9 (amended): origin resolution applies only to the next-page link: a
declarative next-page href beginning with "/" is resolved against the
current page's scheme and host, any other non-empty next-page href is
returned unchanged, and per-item raw link values are always returned
unchanged - never resolved - with a missing href becoming "". -/
theorem claim9_link_resolution (href : String) (u : UrlParts) (node : ItemNode) :
    (strStartsWith href "/" = true →
        getNextPageUrl true (some (some href)) u
          = some (u.protocol ++ "//" ++ u.host ++ href))
      ∧ (strStartsWith href "/" = false → href ≠ "" →
          getNextPageUrl true (some (some href)) u = some href)
      ∧ (extractItem node).link = node.linkHref.getD "" := by
  have hbase : getNextPageUrl true (some (some href)) u =
      if href != "" then
        (if strStartsWith href "/" then
          some (u.protocol ++ "//" ++ u.host ++ href)
         else some href)
      else none := rfl
  refine ⟨?_, ?_, rfl⟩
  · intro hs
    rw [hbase]
    have hne : href ≠ "" := by
      intro he
      subst he
      exact absurd hs (by decide)
    rw [if_pos (bne_iff_ne.mpr hne), if_pos hs]
  · intro hs hne
    rw [hbase]
    rw [if_pos (bne_iff_ne.mpr hne)]
    rw [if_neg (by simp [hs])]

/-- Witness for amended C9: a concrete root-relative next-page href. -/
theorem claim9_link_resolution_witness :
    strStartsWith "/p2" "/" = true
      ∧ getNextPageUrl true (some (some "/p2")) ⟨"https:", "host.example"⟩
          = some ("https:" ++ "//" ++ "host.example" ++ "/p2") := by
  refine ⟨rfl, ?_⟩
  exact (claim9_link_resolution "/p2" ⟨"https:", "host.example"⟩
    ⟨none, none, none, none⟩).1 rfl

/-- Counterexample to claim C9 as stated: a per-item href "/news/1" from a
declarative locator is returned unchanged by extraction - not resolved
against the origin - although the next-page path does resolve the very same
href. -/
theorem claim9_counterexample :
    parseNewsItems [⟨some "t", some "/news/1", some "2026-10-11", some "d"⟩]
        = [⟨"t", "/news/1", "d", "2026-10-11"⟩]
      ∧ strStartsWith "/news/1" "/" = true
      ∧ getNextPageUrl true (some (some "/news/1")) ⟨"https:", "www.example.com"⟩
          = some "https://www.example.com/news/1"
      ∧ "/news/1" ≠ "https://www.example.com/news/1" := by
  refine ⟨?_, rfl, ?_, by decide⟩
  · decide
  · decide

end GoJpRss
